import Mathlib

/-!
Verification of the care-plan generator's validation and duplicate/conflict
engine (`models.py`, `services.py`, `database.py`), shallowly embedded in Lean.

Python strings are modelled as `List Char`; the relational store is modelled
as in-memory lists of records queried in insertion (rowid) order, matching
SQLite's behaviour for the single-row `fetchone` queries in `database.py`.
Timestamps are abstracted to the calendar-day index `Nat` that the
same-day / earlier-day comparisons need.
-/

/-- Python strings, modelled as lists of characters. -/
abbrev Str := List Char

/-- Python `str.lower` / SQLite `LOWER`, modelled on basic latin letters. -/
def lowerStr (s : Str) : Str := s.map Char.toLower

/-- Python `str.upper`, modelled on basic latin letters. -/
def upperStr (s : Str) : Str := s.map Char.toUpper

/-- Python `str.strip`: drop whitespace from both ends. -/
def pyStrip (s : Str) : Str :=
  ((s.dropWhile Char.isWhitespace).reverse.dropWhile Char.isWhitespace).reverse

/-- Helper for `pySplitComma`: walks the string accumulating the current
segment in reverse. -/
def pySplitCommaAux : Str → Str → List Str
  | [], acc => [acc.reverse]
  | c :: rest, acc =>
    if c = ',' then acc.reverse :: pySplitCommaAux rest []
    else pySplitCommaAux rest (c :: acc)

/-- Python `s.split(",")`. -/
def pySplitComma (s : Str) : List Str := pySplitCommaAux s []

/-- Python `str.isdigit`: nonempty and all characters are digits. -/
def pyIsdigit (s : Str) : Bool := !s.isEmpty && s.all Char.isDigit

/-- Tail of the ICD-10 pattern after the leading letter and two digits:
either nothing, or a dot followed by one to four digits. -/
def icd10Tail : Str → Bool
  | [] => true
  | c :: ds =>
    c = '.' && decide (1 ≤ ds.length) && decide (ds.length ≤ 4) && ds.all Char.isDigit

/-- Core of the ICD-10 regular expression from `models.py`
(an uppercase letter, two digits, then `icd10Tail`), applied to a whole
string. -/
def icd10Core : Str → Bool
  | a :: b :: c :: rest => a.isUpper && b.isDigit && c.isDigit && icd10Tail rest
  | _ => false

/-- Python `re.match` of the anchored ICD-10 pattern: because Python's
dollar anchor also matches just before a final newline, a string consisting
of a core match followed by one trailing newline is accepted too. -/
def pyReMatchIcd10 (s : Str) : Bool :=
  icd10Core s || (s.getLast? == some '\n' && icd10Core s.dropLast)

/-- The `is_valid_icd10` check from `models.py`: uppercase the input, then
run Python's `re.match` on the anchored pattern. -/
def is_valid_icd10 (code : Str) : Bool := pyReMatchIcd10 (upperStr code)

/-- A raw value for the two list-valued form fields, which Python receives
as a list, a string, or any other value (such as `None` or a number). -/
inductive PyValue where
  | str : Str → PyValue
  | list : List Str → PyValue
  | other : PyValue
deriving DecidableEq

/-- Raw (pre-validation) submission fields, as handed to `CarePlanRequest`. -/
structure RawRequest where
  patient_first_name : Str
  patient_last_name : Str
  referring_provider : Str
  referring_provider_npi : Str
  patient_mrn : Str
  primary_diagnosis : Str
  medication_name : Str
  additional_diagnoses : PyValue
  medication_history : PyValue
  patient_records : Str
deriving DecidableEq

/-- A validated `CarePlanRequest` from `models.py`. -/
structure CarePlanRequest where
  patient_first_name : Str
  patient_last_name : Str
  referring_provider : Str
  referring_provider_npi : Str
  patient_mrn : Str
  primary_diagnosis : Str
  medication_name : Str
  additional_diagnoses : List Str
  medication_history : List Str
  patient_records : Str
deriving DecidableEq

/-- The list comprehension shared by both list-field validators in
`models.py`: keep the entries whose strip is nonblank, stripped, in order. -/
def strippedCodes (l : List Str) : List Str :=
  (l.filter (fun c => pyStrip c ≠ [])).map pyStrip

/-- The `parse_additional_diagnoses` before-validator from `models.py`:
lists keep their nonblank entries stripped; strings are split on commas with
blank segments dropped; any other value is coerced to the empty list.  Every
surviving code must satisfy `is_valid_icd10`, and survivors are uppercased.
`none` models the `ValueError` raised on invalid codes. -/
def parse_additional_diagnoses : PyValue → Option (List Str)
  | PyValue.list l =>
    if (strippedCodes l).all is_valid_icd10 then some ((strippedCodes l).map upperStr)
    else none
  | PyValue.str s =>
    if pyStrip s = [] then some [] else
    if (strippedCodes (pySplitComma s)).all is_valid_icd10 then
      some ((strippedCodes (pySplitComma s)).map upperStr)
    else none
  | PyValue.other => some []

/-- The `parse_medication_history` before-validator from `models.py`: like
`parse_additional_diagnoses` but with no per-entry validation and no
uppercasing. -/
def parse_medication_history : PyValue → List Str
  | PyValue.list l => strippedCodes l
  | PyValue.str s =>
    if pyStrip s = [] then [] else strippedCodes (pySplitComma s)
  | PyValue.other => []

/-- Validation of a raw request, combining the pydantic field constraints and
the field validators of `CarePlanRequest` in `models.py`; `none` models a
`ValidationError`.  Acceptance is the conjunction of all per-field checks. -/
def validateRequest (r : RawRequest) : Option CarePlanRequest :=
  if 1 ≤ r.patient_first_name.length ∧
     1 ≤ r.patient_last_name.length ∧
     1 ≤ r.referring_provider.length ∧
     (pyIsdigit r.referring_provider_npi ∧ r.referring_provider_npi.length = 10) ∧
     (pyIsdigit r.patient_mrn ∧ r.patient_mrn.length = 6) ∧
     (1 ≤ r.primary_diagnosis.length ∧ is_valid_icd10 r.primary_diagnosis = true) ∧
     1 ≤ r.medication_name.length then
    match parse_additional_diagnoses r.additional_diagnoses with
    | none => none
    | some ad =>
      some { patient_first_name := r.patient_first_name
             patient_last_name := r.patient_last_name
             referring_provider := r.referring_provider
             referring_provider_npi := r.referring_provider_npi
             patient_mrn := r.patient_mrn
             primary_diagnosis := upperStr r.primary_diagnosis
             medication_name := r.medication_name
             additional_diagnoses := ad
             medication_history := parse_medication_history r.medication_history
             patient_records := r.patient_records }
  else none

/-- A persisted care-plan row of the `care_plans` table, with the creation
timestamp abstracted to a calendar-day index. -/
structure Submission where
  patient_first_name : Str
  patient_last_name : Str
  referring_provider : Str
  referring_provider_npi : Str
  patient_mrn : Str
  primary_diagnosis : Str
  medication_name : Str
  additional_diagnoses : List Str
  medication_history : List Str
  patient_records : Str
  generated_plan : Str
  created_day : Nat
deriving DecidableEq

/-- A persisted row of the `providers` table. -/
structure Provider where
  name : Str
  npi : Str
deriving DecidableEq

/-- The relational store: both tables in rowid (insertion) order. -/
structure Store where
  care_plans : List Submission
  providers : List Provider
deriving DecidableEq

/-- The empty store produced by `init_db`. -/
def emptyStore : Store := { care_plans := [], providers := [] }

/-- The `find_care_plan_by_mrn` query from `database.py`. -/
def find_care_plan_by_mrn (st : Store) (mrn : Str) : Option Submission :=
  st.care_plans.find? (fun s => s.patient_mrn = mrn)

/-- The `find_care_plan_by_patient_name` query from `database.py`
(case-insensitive on both name parts). -/
def find_care_plan_by_patient_name (st : Store) (fn ln : Str) : Option Submission :=
  st.care_plans.find? (fun s =>
    lowerStr s.patient_first_name = lowerStr fn ∧ lowerStr s.patient_last_name = lowerStr ln)

/-- The `find_provider_by_npi` query from `database.py`. -/
def find_provider_by_npi (st : Store) (npi : Str) : Option Provider :=
  st.providers.find? (fun p => p.npi = npi)

/-- The `find_provider_by_name` query from `database.py` (case-insensitive). -/
def find_provider_by_name (st : Store) (name : Str) : Option Provider :=
  st.providers.find? (fun p => lowerStr p.name = lowerStr name)

/-- The `insert_provider` insert from `database.py`: `INSERT OR IGNORE`
under the `UNIQUE` constraint on `npi`, so a no-op when the NPI is already
present. -/
def insert_provider (st : Store) (name npi : Str) : Store :=
  if st.providers.any (fun p => p.npi = npi) then st
  else { st with providers := st.providers ++ [{ name := name, npi := npi }] }

/-- The record built by `insert_care_plan` from the validated data, the
generated plan, and the creation day. -/
def mkSubmission (d : CarePlanRequest) (plan : Str) (today : Nat) : Submission :=
  { patient_first_name := d.patient_first_name
    patient_last_name := d.patient_last_name
    referring_provider := d.referring_provider
    referring_provider_npi := d.referring_provider_npi
    patient_mrn := d.patient_mrn
    primary_diagnosis := d.primary_diagnosis
    medication_name := d.medication_name
    additional_diagnoses := d.additional_diagnoses
    medication_history := d.medication_history
    patient_records := d.patient_records
    generated_plan := plan
    created_day := today }

/-- The `insert_care_plan` insert from `database.py`: appends the row and
returns the fresh autoincrement identifier. -/
def insert_care_plan (st : Store) (s : Submission) : Store × Nat :=
  ({ st with care_plans := st.care_plans ++ [s] }, st.care_plans.length + 1)

/-- Modelled from the spec: `find_duplicate_submission` is called by
`check_blocking_duplicate` in `services.py` but its definition is not in the
`database.py` of this snapshot.  Spec section 4.3: find a Submission by
(first name, last name, MRN, medication name) restricted to creation date =
today, with the names compared case-insensitively (spec section 4.2 step 1). -/
def find_duplicate_submission (st : Store) (today : Nat) (fn ln mrn med : Str) :
    Option Submission :=
  st.care_plans.find? (fun s =>
    lowerStr s.patient_first_name = lowerStr fn ∧
    lowerStr s.patient_last_name = lowerStr ln ∧
    s.patient_mrn = mrn ∧ s.medication_name = med ∧ s.created_day = today)

/-- Modelled from the spec: `find_previous_submission` is called by
`check_duplicate_warnings` in `services.py` but its definition is not in the
`database.py` of this snapshot.  Spec section 4.3: find a Submission by
(MRN, medication name) restricted to creation date earlier than today. -/
def find_previous_submission (st : Store) (today : Nat) (mrn med : Str) :
    Option Submission :=
  st.care_plans.find? (fun s =>
    s.patient_mrn = mrn ∧ s.medication_name = med ∧ s.created_day < today)

/-- The duplicate-MRN warning text from `check_duplicate_warnings`. -/
def mrnWarningMsg (mrn : Str) : Str :=
  "Warning: Patient with MRN ".data ++ (mrn ++ " already exists in the system.".data)

/-- The duplicate-patient-name warning text from `check_duplicate_warnings`. -/
def nameWarningMsg (fn ln : Str) : Str :=
  "Warning: Patient with name ".data ++ (fn ++ (" ".data ++ (ln ++ " may already exist.".data)))

/-- The prior-medication warning text from `check_duplicate_warnings`. -/
def prevMedWarningMsg (mrn med : Str) : Str :=
  "Warning: This patient (MRN: ".data ++
    (mrn ++ (") already has a care plan for ".data ++ (med ++ " from a previous date.".data)))

/-- The name-direction `ProviderConflictError` message from
`check_blocking_provider_conflict` (provider name already registered with a
different NPI). -/
def nameConflictMsg (name existingNpi npi : Str) : Str :=
  "Provider \x27".data ++
    (name ++ ("\x27 is already registered with NPI ".data ++
      (existingNpi ++ (". Cannot register same provider with different NPI (".data ++
        (npi ++ ").".data)))))

/-- The NPI-direction `ProviderConflictError` message from
`check_blocking_provider_conflict` (NPI already registered to a different
provider name). -/
def npiConflictMsg (npi existingName name : Str) : Str :=
  "NPI ".data ++
    (npi ++ (" is already registered to provider \x27".data ++
      (existingName ++ ("\x27. Cannot register different provider name (\x27".data ++
        (name ++ "\x27) with same NPI.".data)))))

/-- The `DuplicateSubmissionError` message from `check_blocking_duplicate`. -/
def dupSubmissionMsg (fn ln mrn med : Str) : Str :=
  "A care plan for ".data ++
    (fn ++ (" ".data ++ (ln ++ (" (MRN: ".data ++
      (mrn ++ (") with medication ".data ++ (med ++ " was already submitted today.".data)))))))

/-- The first block of `check_duplicate_warnings` in `services.py`: an
MRN-match warning, else (only when no MRN match) a name-match warning. -/
def patient_duplicate_warnings (st : Store) (d : CarePlanRequest) : List Str :=
  match find_care_plan_by_mrn st d.patient_mrn with
  | some _ => [mrnWarningMsg d.patient_mrn]
  | none =>
    match find_care_plan_by_patient_name st d.patient_first_name d.patient_last_name with
    | some _ => [nameWarningMsg d.patient_first_name d.patient_last_name]
    | none => []

/-- The second block of `check_duplicate_warnings` in `services.py`: a
warning when the same patient already has a plan for the same medication
from a previous date. -/
def prior_medication_warnings (st : Store) (today : Nat) (d : CarePlanRequest) : List Str :=
  match find_previous_submission st today d.patient_mrn d.medication_name with
  | some _ => [prevMedWarningMsg d.patient_mrn d.medication_name]
  | none => []

/-- The `check_duplicate_warnings` function from `services.py`: the warnings
list accumulates the patient-duplicate block, then the prior-medication
block. -/
def check_duplicate_warnings (st : Store) (today : Nat) (d : CarePlanRequest) : List Str :=
  patient_duplicate_warnings st d ++ prior_medication_warnings st today d

/-- The NPI-direction half of `check_blocking_provider_conflict`: an NPI
registered to a case-insensitively different name blocks. -/
def check_npi_conflict (st : Store) (name npi : Str) : Option Str :=
  match find_provider_by_npi st npi with
  | some q => if lowerStr q.name = lowerStr name then none else some (npiConflictMsg npi q.name name)
  | none => none

/-- The `check_blocking_provider_conflict` function from `services.py`: the
name-direction check runs first (a provider with the same case-insensitive
name but a different NPI blocks), and only if it does not raise is the
NPI-direction check run. -/
def check_blocking_provider_conflict (st : Store) (name npi : Str) : Option Str :=
  match find_provider_by_name st name with
  | some p =>
    if p.npi = npi then check_npi_conflict st name npi
    else some (nameConflictMsg name p.npi npi)
  | none => check_npi_conflict st name npi

/-- The `check_blocking_duplicate` function from `services.py`. -/
def check_blocking_duplicate (st : Store) (today : Nat) (d : CarePlanRequest) : Option Str :=
  match find_duplicate_submission st today d.patient_first_name d.patient_last_name
      d.patient_mrn d.medication_name with
  | some _ =>
    some (dupSubmissionMsg d.patient_first_name d.patient_last_name
      d.patient_mrn d.medication_name)
  | none => none

/-- The error outcomes of `create_care_plan`: the two blocking exceptions of
`services.py` and the `CarePlanGenerationError` of `llm.py`. -/
inductive CPError where
  | duplicateSubmission : Str → CPError
  | providerConflict : Str → CPError
  | generationFailed : CPError
deriving DecidableEq

/-- The `CarePlanResult` dataclass from `services.py`. -/
structure CarePlanResult where
  id : Nat
  warnings : List Str
  generated_plan : Str
deriving DecidableEq

/-- The `create_care_plan` orchestration from `services.py`.  The opaque
LLM call is modelled by its outcome `gen` (`none` for a
`CarePlanGenerationError`, `some plan` for success); `today` is the current
calendar day.  The returned store is the state after the call: unchanged
whenever an exception propagates. -/
def create_care_plan (st : Store) (today : Nat) (gen : Option Str) (d : CarePlanRequest) :
    Except CPError CarePlanResult × Store :=
  match check_blocking_duplicate st today d with
  | some msg => (Except.error (CPError.duplicateSubmission msg), st)
  | none =>
    match check_blocking_provider_conflict st d.referring_provider d.referring_provider_npi with
    | some msg => (Except.error (CPError.providerConflict msg), st)
    | none =>
      let warnings := check_duplicate_warnings st today d
      match gen with
      | none => (Except.error CPError.generationFailed, st)
      | some plan =>
        let st1 := insert_provider st d.referring_provider d.referring_provider_npi
        let inserted := insert_care_plan st1 (mkSubmission d plan today)
        (Except.ok { id := inserted.2, warnings := warnings, generated_plan := plan },
          inserted.1)

/-- Probe request with known-good fields used to state acceptance facts about
a single identifier field. -/
def baseRaw : RawRequest :=
  { patient_first_name := "John".data
    patient_last_name := "Doe".data
    referring_provider := "Dr. Smith".data
    referring_provider_npi := "1234567890".data
    patient_mrn := "123456".data
    primary_diagnosis := "E11.9".data
    medication_name := "Humira".data
    additional_diagnoses := PyValue.str ("I10".data)
    medication_history := PyValue.other
    patient_records := [] }

/-- The probe request with the MRN field replaced. -/
def mrnProbe (s : Str) : RawRequest := { baseRaw with patient_mrn := s }

/-- The probe request with the NPI field replaced. -/
def npiProbe (s : Str) : RawRequest := { baseRaw with referring_provider_npi := s }

/-- The claim's diagnosis-code acceptance predicate, stated as the spec words
it: a whole-string case-insensitive match of the pattern (an uppercase
letter, two digits, optionally a dot and one to four digits), with no
trailing-newline allowance. -/
def specIcd10Fullmatch (s : Str) : Bool := icd10Core (upperStr s)

/-- Re-injection of a validated request into raw form (list fields become
lists), used to state that validation is idempotent. -/
def toRaw (v : CarePlanRequest) : RawRequest :=
  { patient_first_name := v.patient_first_name
    patient_last_name := v.patient_last_name
    referring_provider := v.referring_provider
    referring_provider_npi := v.referring_provider_npi
    patient_mrn := v.patient_mrn
    primary_diagnosis := v.primary_diagnosis
    medication_name := v.medication_name
    additional_diagnoses := PyValue.list v.additional_diagnoses
    medication_history := PyValue.list v.medication_history
    patient_records := v.patient_records }

/-- Bidirectional injectivity of the provider table: no two records share an
NPI with different names, and no two share a case-insensitively equal name
with different NPIs. -/
def providersConsistent (l : List Provider) : Prop :=
  ∀ p ∈ l, ∀ q ∈ l,
    (p.npi = q.npi → p.name = q.name) ∧
    (lowerStr p.name = lowerStr q.name → p.npi = q.npi)

/-- Runs a sequence of `create_care_plan` operations (each given by its day,
its generation outcome, and its validated request), threading the store. -/
def runOps : List (Nat × Option Str × CarePlanRequest) → Store → Store
  | [], st => st
  | op :: rest, st => runOps rest (create_care_plan st op.1 op.2.1 op.2.2).2

/-- A concrete validated request used in witnesses. -/
def reqJohn : CarePlanRequest :=
  { patient_first_name := "John".data
    patient_last_name := "Doe".data
    referring_provider := "Dr. Smith".data
    referring_provider_npi := "1234567890".data
    patient_mrn := "123456".data
    primary_diagnosis := "E11.9".data
    medication_name := "Humira".data
    additional_diagnoses := []
    medication_history := []
    patient_records := [] }

/-- A store already holding a day-5 submission of `reqJohn`. -/
def stWithJohn : Store :=
  { care_plans := [mkSubmission reqJohn ("plan".data) 5], providers := [] }

/-- A registered provider used in the C2 scenario. -/
def provSmith : Provider := { name := "Dr. Smith".data, npi := "1111111111".data }

/-- A second registered provider used in the C2 scenario. -/
def provJones : Provider := { name := "Dr. Jones".data, npi := "2222222222".data }

/-- A store in which both conflict directions fire for the submission
(name `Dr. Smith`, NPI `2222222222`). -/
def stTwoProviders : Store := { care_plans := [], providers := [provSmith, provJones] }

/-- A store holding a single registered provider. -/
def stSmithOnly : Store := { care_plans := [], providers := [provSmith] }

/-- The probe request with both list-valued fields set to a non-list,
non-string value (Python `None` or a number). -/
def rawOther : RawRequest :=
  { baseRaw with
      additional_diagnoses := PyValue.other
      medication_history := PyValue.other }

/-- The validated form of `baseRaw`, used in witnesses. -/
def reqBaseValidated : CarePlanRequest :=
  { patient_first_name := "John".data
    patient_last_name := "Doe".data
    referring_provider := "Dr. Smith".data
    referring_provider_npi := "1234567890".data
    patient_mrn := "123456".data
    primary_diagnosis := "E11.9".data
    medication_name := "Humira".data
    additional_diagnoses := ["I10".data]
    medication_history := []
    patient_records := [] }

/-- The validated form of `rawOther`, used in witnesses. -/
def reqOtherValidated : CarePlanRequest :=
  { reqBaseValidated with additional_diagnoses := [] }

-- ===== helper lemmas =====

theorem charToUpper_eq (c : Char) :
    c.toUpper = if 97 ≤ c.toNat ∧ c.toNat ≤ 122 then Char.ofNat (c.toNat - 32) else c := rfl

theorem toUpper_toUpper (c : Char) : c.toUpper.toUpper = c.toUpper := by
  by_cases h : 97 ≤ c.toNat ∧ c.toNat ≤ 122
  · have hc : c = Char.ofNat c.toNat := (Char.ofNat_toNat c).symm
    obtain ⟨n, hn⟩ : ∃ n, c.toNat = n := ⟨_, rfl⟩
    rw [hn] at hc h
    rw [hc]
    obtain ⟨h1, h2⟩ := h
    interval_cases n <;> decide
  · rw [charToUpper_eq c, if_neg h, charToUpper_eq c, if_neg h]

theorem isWhitespace_toUpper (c : Char) : c.toUpper.isWhitespace = c.isWhitespace := by
  by_cases h : 97 ≤ c.toNat ∧ c.toNat ≤ 122
  · have hc : c = Char.ofNat c.toNat := (Char.ofNat_toNat c).symm
    obtain ⟨n, hn⟩ : ∃ n, c.toNat = n := ⟨_, rfl⟩
    rw [hn] at hc h
    rw [hc]
    obtain ⟨h1, h2⟩ := h
    interval_cases n <;> decide
  · rw [charToUpper_eq c, if_neg h]

theorem toUpper_eq_newline (c : Char) (h : c.toUpper = '\n') : c = '\n' := by
  by_cases hr : 97 ≤ c.toNat ∧ c.toNat ≤ 122
  · have hc : c = Char.ofNat c.toNat := (Char.ofNat_toNat c).symm
    obtain ⟨n, hn⟩ : ∃ n, c.toNat = n := ⟨_, rfl⟩
    rw [hn] at hc hr
    rw [hc] at h ⊢
    obtain ⟨h1, h2⟩ := hr
    interval_cases n <;> revert h <;> decide
  · rw [charToUpper_eq c, if_neg hr] at h
    exact h

theorem upperStr_upperStr (s : Str) : upperStr (upperStr s) = upperStr s := by
  unfold upperStr
  rw [List.map_map]
  exact List.map_congr_left (fun c _ => toUpper_toUpper c)

theorem upperStr_length (s : Str) : (upperStr s).length = s.length := List.length_map ..

theorem is_valid_icd10_upperStr (s : Str) :
    is_valid_icd10 (upperStr s) = is_valid_icd10 s := by
  unfold is_valid_icd10
  rw [upperStr_upperStr]

theorem dropWhile_head_false (p : Char → Bool) (l : Str) :
    ∀ c, (l.dropWhile p).head? = some c → p c = false := by
  induction l with
  | nil => intro c h; simp [List.dropWhile] at h
  | cons a t ih =>
    intro c h
    by_cases hp : p a = true
    · rw [List.dropWhile_cons_of_pos hp] at h
      exact ih c h
    · rw [List.dropWhile_cons_of_neg hp] at h
      simp only [List.head?_cons, Option.some.injEq] at h
      subst h
      simpa using hp

theorem dropWhile_eq_self_of_head (p : Char → Bool) (l : Str)
    (h : ∀ c, l.head? = some c → p c = false) : l.dropWhile p = l := by
  cases l with
  | nil => rfl
  | cons a t =>
    rw [List.dropWhile_cons_of_neg]
    simp [h a rfl]

theorem dropWhile_idem (p : Char → Bool) (l : Str) :
    (l.dropWhile p).dropWhile p = l.dropWhile p :=
  dropWhile_eq_self_of_head _ _ (dropWhile_head_false p l)

theorem dropWhile_getLast? (p : Char → Bool) (l : Str) (h : l.dropWhile p ≠ []) :
    (l.dropWhile p).getLast? = l.getLast? := by
  induction l with
  | nil => simp [List.dropWhile] at h
  | cons a t ih =>
    by_cases hp : p a = true
    · rw [List.dropWhile_cons_of_pos hp] at h ⊢
      rw [ih h]
      have ht : t ≠ [] := by
        rintro rfl
        simp [List.dropWhile] at h
      cases t with
      | nil => exact absurd rfl ht
      | cons b t2 => rw [List.getLast?_cons_cons]
    · rw [List.dropWhile_cons_of_neg hp]

theorem pyStrip_idem (s : Str) : pyStrip (pyStrip s) = pyStrip s := by
  unfold pyStrip
  by_cases hr : (s.dropWhile Char.isWhitespace).reverse.dropWhile Char.isWhitespace = []
  · rw [hr]
    simp [List.dropWhile]
  · have hhead : ∀ c,
        ((s.dropWhile Char.isWhitespace).reverse.dropWhile Char.isWhitespace).reverse.head? =
          some c → Char.isWhitespace c = false := by
      intro c hc
      rw [List.head?_reverse, dropWhile_getLast? _ _ hr, List.getLast?_reverse] at hc
      exact dropWhile_head_false Char.isWhitespace s c hc
    rw [dropWhile_eq_self_of_head _ _ hhead, List.reverse_reverse, dropWhile_idem]

theorem pyStrip_upperStr (s : Str) : pyStrip (upperStr s) = upperStr (pyStrip s) := by
  have hws : (Char.isWhitespace ∘ Char.toUpper) = Char.isWhitespace :=
    funext (fun c => isWhitespace_toUpper c)
  unfold pyStrip upperStr
  rw [List.dropWhile_map, hws, ← List.map_reverse, List.dropWhile_map, hws, ← List.map_reverse]

theorem pyStrip_length_ne_zero (s : Str) (h : pyStrip s ≠ []) : s ≠ [] := by
  rintro rfl
  simp [pyStrip, List.dropWhile] at h

theorem append_ne_append_of_take_ne (A B x y : Str) (n : Nat)
    (hA : n ≤ A.length) (hB : n ≤ B.length) (h : A.take n ≠ B.take n) :
    A ++ x ≠ B ++ y := by
  intro he
  apply h
  have h2 := congrArg (List.take n) he
  rwa [List.take_append_of_le_length hA, List.take_append_of_le_length hB] at h2

theorem prevMed_ne_mrnWarning (a b c : Str) :
    prevMedWarningMsg a b ≠ mrnWarningMsg c := by
  unfold prevMedWarningMsg mrnWarningMsg
  exact append_ne_append_of_take_ne _ _ _ _ 10 (by decide) (by decide) (by decide)

theorem prevMed_ne_nameWarning (a b c d : Str) :
    prevMedWarningMsg a b ≠ nameWarningMsg c d := by
  unfold prevMedWarningMsg nameWarningMsg
  exact append_ne_append_of_take_ne _ _ _ _ 10 (by decide) (by decide) (by decide)

theorem nameWarning_ne_mrnWarning (a b c : Str) :
    nameWarningMsg a b ≠ mrnWarningMsg c := by
  unfold nameWarningMsg mrnWarningMsg
  exact append_ne_append_of_take_ne _ _ _ _ 23 (by decide) (by decide) (by decide)

-- ===== claim theorems =====

/-- C5: `create_care_plan` writes nothing unless generation succeeded — if
the call ends in any error (duplicate block, provider-conflict block, or
generation failure), the returned store is exactly the store it was given. -/
theorem create_care_plan_error_leaves_store (st : Store) (today : Nat) (gen : Option Str)
    (d : CarePlanRequest) (e : CPError)
    (h : (create_care_plan st today gen d).1 = Except.error e) :
    (create_care_plan st today gen d).2 = st := by
  unfold create_care_plan at h ⊢
  cases hd : check_blocking_duplicate st today d with
  | some m => simp [hd]
  | none =>
    simp only [hd] at h ⊢
    cases hp : check_blocking_provider_conflict st d.referring_provider
        d.referring_provider_npi with
    | some m => simp [hp]
    | none =>
      simp only [hp] at h ⊢
      cases gen with
      | none => simp
      | some plan => simp at h

/-- Witness for C5 at a concrete input: with no generation outcome the store
comes back unchanged. -/
theorem create_care_plan_error_leaves_store_witness :
    (create_care_plan emptyStore 0 none reqJohn).2 = emptyStore :=
  create_care_plan_error_leaves_store emptyStore 0 none reqJohn CPError.generationFailed
    (by rfl)

/-- C1: if the store holds a prior submission matching the request's patient
first name (case-insensitively), last name (case-insensitively), MRN and
medication name created on the same calendar day, then `create_care_plan`
ends immediately in the duplicate-submission block — no plan, no warnings,
and an unchanged store; if no such submission exists this step does not
block. -/
theorem c1_same_day_duplicate_blocks (st : Store) (today : Nat) (gen : Option Str)
    (d : CarePlanRequest) :
    ((∃ s, find_duplicate_submission st today d.patient_first_name d.patient_last_name
        d.patient_mrn d.medication_name = some s) →
      create_care_plan st today gen d =
        (Except.error (CPError.duplicateSubmission (dupSubmissionMsg d.patient_first_name
          d.patient_last_name d.patient_mrn d.medication_name)), st)) ∧
    (find_duplicate_submission st today d.patient_first_name d.patient_last_name
        d.patient_mrn d.medication_name = none →
      ∀ m, (create_care_plan st today gen d).1 ≠
        Except.error (CPError.duplicateSubmission m)) := by
  constructor
  · rintro ⟨s, hs⟩
    have hb : check_blocking_duplicate st today d =
        some (dupSubmissionMsg d.patient_first_name d.patient_last_name
          d.patient_mrn d.medication_name) := by
      unfold check_blocking_duplicate
      rw [hs]
    simp [create_care_plan, hb]
  · intro hn m
    have hb : check_blocking_duplicate st today d = none := by
      unfold check_blocking_duplicate
      rw [hn]
    unfold create_care_plan
    simp only [hb]
    cases hp : check_blocking_provider_conflict st d.referring_provider
        d.referring_provider_npi with
    | some msg => simp
    | none =>
      cases gen with
      | none => simp
      | some plan => simp

/-- Witness for C1 at a concrete input: resubmitting `reqJohn` on day 5 is
blocked as a duplicate and the store is unchanged. -/
theorem c1_same_day_duplicate_blocks_witness :
    create_care_plan stWithJohn 5 (some ("plan2".data)) reqJohn =
      (Except.error (CPError.duplicateSubmission (dupSubmissionMsg ("John".data) ("Doe".data)
        ("123456".data) ("Humira".data))), stWithJohn) :=
  (c1_same_day_duplicate_blocks stWithJohn 5 (some ("plan2".data)) reqJohn).1
    ⟨mkSubmission reqJohn ("plan".data) 5, by decide⟩

/-- C2 counterexample: in `stTwoProviders` both conflict directions fire for
the submission (name `Dr. Smith`, NPI `2222222222`) — the NPI is registered
to the different name `Dr. Jones` — yet the code reports the name-direction
block (name registered under a different NPI), not the NPI-direction block
the claim requires. -/
theorem c2_npi_direction_first_counterexample :
    (find_provider_by_npi stTwoProviders ("2222222222".data) = some provJones ∧
      lowerStr provJones.name ≠ lowerStr ("Dr. Smith".data)) ∧
    check_blocking_provider_conflict stTwoProviders ("Dr. Smith".data) ("2222222222".data) =
      some (nameConflictMsg ("Dr. Smith".data) ("1111111111".data) ("2222222222".data)) ∧
    nameConflictMsg ("Dr. Smith".data) ("1111111111".data) ("2222222222".data) ≠
      npiConflictMsg ("2222222222".data) ("Dr. Jones".data) ("Dr. Smith".data) := by
  decide

/-- C2 amended: the provider-conflict check looks the provider up by the
submitted name (case-insensitively) first — a match with a different stored
NPI blocks with the name-registered-under-different-NPI reason; only
otherwise is the NPI looked up, a match with a case-insensitively different
stored name blocking with the NPI-registered-to-different-name reason; when
both directions would conflict the name-direction block is the one
reported. -/
theorem c2_amended_name_direction_first (st : Store) (name npi : Str) :
    (∀ p, find_provider_by_name st name = some p → p.npi ≠ npi →
      check_blocking_provider_conflict st name npi =
        some (nameConflictMsg name p.npi npi)) ∧
    ((∀ p, find_provider_by_name st name = some p → p.npi = npi) →
      ∀ q, find_provider_by_npi st npi = some q → lowerStr q.name ≠ lowerStr name →
      check_blocking_provider_conflict st name npi =
        some (npiConflictMsg npi q.name name)) ∧
    ((∀ p, find_provider_by_name st name = some p → p.npi = npi) →
      (∀ q, find_provider_by_npi st npi = some q → lowerStr q.name = lowerStr name) →
      check_blocking_provider_conflict st name npi = none) := by
  refine ⟨?_, ?_, ?_⟩
  · intro p hp hne
    simp only [check_blocking_provider_conflict, hp, if_neg hne]
  · intro hall q hq hne
    have hnpi : check_npi_conflict st name npi = some (npiConflictMsg npi q.name name) := by
      simp only [check_npi_conflict, hq, if_neg hne]
    cases hn : find_provider_by_name st name with
    | none => simp only [check_blocking_provider_conflict, hn]; exact hnpi
    | some p =>
      simp only [check_blocking_provider_conflict, hn, if_pos (hall p hn)]
      exact hnpi
  · intro hall hq'
    have hnpi : check_npi_conflict st name npi = none := by
      cases hq : find_provider_by_npi st npi with
      | none => simp only [check_npi_conflict, hq]
      | some q => simp only [check_npi_conflict, hq, if_pos (hq' q hq)]
    cases hn : find_provider_by_name st name with
    | none => simp only [check_blocking_provider_conflict, hn]; exact hnpi
    | some p =>
      simp only [check_blocking_provider_conflict, hn, if_pos (hall p hn)]
      exact hnpi

/-- Witness for the amended C2 at a concrete input: a known name submitted
with a fresh NPI is blocked in the name direction. -/
theorem c2_amended_name_direction_first_witness :
    check_blocking_provider_conflict stSmithOnly ("Dr. Smith".data) ("9999999999".data) =
      some (nameConflictMsg ("Dr. Smith".data) ("1111111111".data) ("9999999999".data)) :=
  (c2_amended_name_direction_first stSmithOnly ("Dr. Smith".data) ("9999999999".data)).1
    provSmith (by decide) (by decide)

/-- Acceptance of `validateRequest` unfolded: the field-check conjunction
plus success of the additional-diagnoses parser. -/
theorem validate_isSome_iff (r : RawRequest) :
    (validateRequest r).isSome = true ↔
      ((1 ≤ r.patient_first_name.length ∧
        1 ≤ r.patient_last_name.length ∧
        1 ≤ r.referring_provider.length ∧
        (pyIsdigit r.referring_provider_npi ∧ r.referring_provider_npi.length = 10) ∧
        (pyIsdigit r.patient_mrn ∧ r.patient_mrn.length = 6) ∧
        (1 ≤ r.primary_diagnosis.length ∧ is_valid_icd10 r.primary_diagnosis = true) ∧
        1 ≤ r.medication_name.length) ∧
       (parse_additional_diagnoses r.additional_diagnoses).isSome = true) := by
  unfold validateRequest
  by_cases hC : 1 ≤ r.patient_first_name.length ∧
      1 ≤ r.patient_last_name.length ∧
      1 ≤ r.referring_provider.length ∧
      (pyIsdigit r.referring_provider_npi ∧ r.referring_provider_npi.length = 10) ∧
      (pyIsdigit r.patient_mrn ∧ r.patient_mrn.length = 6) ∧
      (1 ≤ r.primary_diagnosis.length ∧ is_valid_icd10 r.primary_diagnosis = true) ∧
      1 ≤ r.medication_name.length
  · rw [if_pos hC]
    cases hp : parse_additional_diagnoses r.additional_diagnoses with
    | none => simp [hC, hp]
    | some ad => simp [hC, hp]
  · rw [if_neg hC]
    simp [hC]

/-- Bridge between the Python `isdigit`-plus-length check and the claim's
length-and-digits formulation, for a positive required length. -/
theorem pyIsdigit_and_length (s : Str) (n : Nat) (hn : 0 < n) :
    (pyIsdigit s = true ∧ s.length = n) ↔ (s.length = n ∧ s.all Char.isDigit = true) := by
  unfold pyIsdigit
  constructor
  · rintro ⟨hd, hl⟩
    rw [Bool.and_eq_true] at hd
    exact ⟨hl, hd.2⟩
  · rintro ⟨hl, hd⟩
    refine ⟨?_, hl⟩
    rw [Bool.and_eq_true]
    refine ⟨?_, hd⟩
    cases s with
    | nil => rw [List.length_nil] at hl; omega
    | cons a t => rfl

/-- Elements produced by the shared list comprehension are stripped and
nonblank. -/
theorem strippedCodes_mem (l : List Str) :
    ∀ e ∈ strippedCodes l, pyStrip e = e ∧ e ≠ [] := by
  intro e he
  unfold strippedCodes at he
  obtain ⟨y, hy, rfl⟩ := List.mem_map.mp he
  refine ⟨pyStrip_idem y, ?_⟩
  have h2 := (List.mem_filter.mp hy).2
  simpa using h2

/-- The shared list comprehension fixes lists of stripped nonblank entries. -/
theorem strippedCodes_fixed (l : List Str) (h : ∀ e ∈ l, pyStrip e = e ∧ e ≠ []) :
    strippedCodes l = l := by
  unfold strippedCodes
  have hf : l.filter (fun c => pyStrip c ≠ []) = l := by
    rw [List.filter_eq_self]
    intro a ha
    simp only [decide_eq_true_eq, (h a ha).1]
    exact (h a ha).2
  rw [hf]
  have hmap : l.map pyStrip = l.map id := List.map_congr_left (fun a ha => (h a ha).1)
  rw [hmap, List.map_id]

/-- Elements of a successful run of the diagnosis-list core (the common body
of both branches of `parse_additional_diagnoses`) are stripped, nonblank,
valid and uppercase-fixed. -/
theorem parse_core_props (L ad : List Str)
    (hp : (if (strippedCodes L).all is_valid_icd10 then
        some ((strippedCodes L).map upperStr) else none) = some ad) :
    ∀ e ∈ ad, pyStrip e = e ∧ e ≠ [] ∧ is_valid_icd10 e = true ∧ upperStr e = e := by
  split at hp
  · rename_i hall
    obtain rfl := Option.some.inj hp
    intro e he
    obtain ⟨c, hc, rfl⟩ := List.mem_map.mp he
    obtain ⟨hstrip, hne⟩ := strippedCodes_mem L c hc
    have hval : is_valid_icd10 c = true := by
      rw [List.all_eq_true] at hall
      exact hall c hc
    refine ⟨?_, ?_, ?_, upperStr_upperStr c⟩
    · rw [pyStrip_upperStr, hstrip]
    · intro hemp
      exact hne (List.map_eq_nil_iff.mp hemp)
    · rw [is_valid_icd10_upperStr]
      exact hval
  · exact absurd hp (by simp)

/-- Elements of a successful `parse_additional_diagnoses` are stripped,
nonblank, valid and uppercase-fixed. -/
theorem parse_ad_mem_props (pv : PyValue) (ad : List Str)
    (hp : parse_additional_diagnoses pv = some ad) :
    ∀ e ∈ ad, pyStrip e = e ∧ e ≠ [] ∧ is_valid_icd10 e = true ∧ upperStr e = e := by
  cases pv with
  | other =>
    simp only [parse_additional_diagnoses] at hp
    obtain rfl := Option.some.inj hp
    intro e he
    exact absurd he (List.not_mem_nil e)
  | list l =>
    simp only [parse_additional_diagnoses] at hp
    exact parse_core_props l ad hp
  | str s =>
    simp only [parse_additional_diagnoses] at hp
    split at hp
    · obtain rfl := Option.some.inj hp
      intro e he
      exact absurd he (List.not_mem_nil e)
    · exact parse_core_props (pySplitComma s) ad hp

/-- Re-validating the list produced by a successful
`parse_additional_diagnoses` returns it unchanged. -/
theorem parse_ad_idem (pv : PyValue) (ad : List Str)
    (hp : parse_additional_diagnoses pv = some ad) :
    parse_additional_diagnoses (PyValue.list ad) = some ad := by
  have hprops := parse_ad_mem_props pv ad hp
  have hsc : strippedCodes ad = ad :=
    strippedCodes_fixed ad (fun e he => ⟨(hprops e he).1, (hprops e he).2.1⟩)
  simp only [parse_additional_diagnoses]
  rw [hsc, if_pos ?hv]
  case hv =>
    rw [List.all_eq_true]
    intro e he
    exact (hprops e he).2.2.1
  have hmap : ad.map upperStr = ad.map id :=
    List.map_congr_left (fun a ha => (hprops a ha).2.2.2)
  rw [hmap, List.map_id]

/-- Elements of `parse_medication_history` are stripped and nonblank. -/
theorem parse_mh_mem_props (pv : PyValue) :
    ∀ e ∈ parse_medication_history pv, pyStrip e = e ∧ e ≠ [] := by
  cases pv with
  | other =>
    simp only [parse_medication_history]
    intro e he
    exact absurd he (List.not_mem_nil e)
  | list l =>
    simp only [parse_medication_history]
    exact strippedCodes_mem l
  | str s =>
    simp only [parse_medication_history]
    split
    · intro e he
      exact absurd he (List.not_mem_nil e)
    · exact strippedCodes_mem _

/-- Re-validating the list produced by `parse_medication_history` returns it
unchanged. -/
theorem parse_mh_idem (pv : PyValue) :
    parse_medication_history (PyValue.list (parse_medication_history pv)) =
      parse_medication_history pv :=
  strippedCodes_fixed _ (parse_mh_mem_props pv)

/-- C6: validation accepts the MRN field exactly when it is six characters
all digits, and the NPI field exactly when it is ten characters all digits;
a request whose MRN or NPI violates this is rejected, and on the probe
requests acceptance is exactly the length-and-digits condition. -/
theorem c6_mrn_npi_validation (r : RawRequest) (s : Str) :
    ((validateRequest r).isSome = true →
      (r.patient_mrn.length = 6 ∧ r.patient_mrn.all Char.isDigit = true) ∧
      (r.referring_provider_npi.length = 10 ∧
        r.referring_provider_npi.all Char.isDigit = true)) ∧
    (¬ (r.patient_mrn.length = 6 ∧ r.patient_mrn.all Char.isDigit = true) →
      validateRequest r = none) ∧
    (¬ (r.referring_provider_npi.length = 10 ∧
        r.referring_provider_npi.all Char.isDigit = true) →
      validateRequest r = none) ∧
    ((validateRequest (mrnProbe s)).isSome = true ↔
      (s.length = 6 ∧ s.all Char.isDigit = true)) ∧
    ((validateRequest (npiProbe s)).isSome = true ↔
      (s.length = 10 ∧ s.all Char.isDigit = true)) := by
  refine ⟨?_, ?_, ?_, ?_, ?_⟩
  · intro h
    rw [validate_isSome_iff] at h
    obtain ⟨⟨_, _, _, hnpi, hmrn, _, _⟩, _⟩ := h
    exact ⟨(pyIsdigit_and_length _ 6 (by norm_num)).mp hmrn,
      (pyIsdigit_and_length _ 10 (by norm_num)).mp hnpi⟩
  · intro hnot
    unfold validateRequest
    rw [if_neg]
    intro hC
    exact hnot ((pyIsdigit_and_length _ 6 (by norm_num)).mp hC.2.2.2.2.1)
  · intro hnot
    unfold validateRequest
    rw [if_neg]
    intro hC
    exact hnot ((pyIsdigit_and_length _ 10 (by norm_num)).mp hC.2.2.2.1)
  · rw [validate_isSome_iff]
    simp only [mrnProbe, baseRaw]
    constructor
    · rintro ⟨⟨_, _, _, _, hm, _, _⟩, _⟩
      exact (pyIsdigit_and_length s 6 (by norm_num)).mp hm
    · intro hm
      exact ⟨⟨by decide, by decide, by decide, by decide,
        (pyIsdigit_and_length s 6 (by norm_num)).mpr hm, by decide, by decide⟩, by decide⟩
  · rw [validate_isSome_iff]
    simp only [npiProbe, baseRaw]
    constructor
    · rintro ⟨⟨_, _, _, hm, _, _, _⟩, _⟩
      exact (pyIsdigit_and_length s 10 (by norm_num)).mp hm
    · intro hm
      exact ⟨⟨by decide, by decide, by decide,
        (pyIsdigit_and_length s 10 (by norm_num)).mpr hm, by decide, by decide, by decide⟩,
        by decide⟩

/-- Witness for C6 at a concrete input: a six-digit MRN is accepted on the
probe request. -/
theorem c6_mrn_npi_validation_witness :
    (validateRequest (mrnProbe ("654321".data))).isSome = true :=
  (c6_mrn_npi_validation baseRaw ("654321".data)).2.2.2.1.mpr (by decide)

/-- C7 counterexample: the string `E11` followed by a newline is accepted by
`is_valid_icd10` (Python's dollar anchor matches before a final newline) but
does not match the claim's whole-string pattern. -/
theorem c7_whole_string_counterexample :
    is_valid_icd10 ("E11\n".data) = true ∧ specIcd10Fullmatch ("E11\n".data) = false := by
  decide

/-- C7 amended: a string is accepted as a diagnosis code iff it matches the
case-insensitive pattern as a whole string, or consists of such a match
followed by a single trailing newline (the semantics of Python's dollar
anchor); every accepted code is normalized to uppercase. -/
theorem c7_amended_trailing_newline (s : Str) (r : RawRequest) (v : CarePlanRequest) :
    (is_valid_icd10 s = true ↔
      (specIcd10Fullmatch s = true ∨
        (s.getLast? = some '\n' ∧ specIcd10Fullmatch s.dropLast = true))) ∧
    (validateRequest r = some v →
      v.primary_diagnosis = upperStr r.primary_diagnosis ∧
      upperStr v.primary_diagnosis = v.primary_diagnosis ∧
      ∀ c ∈ v.additional_diagnoses, upperStr c = c) := by
  have hb2 : upperStr s.dropLast = (upperStr s).dropLast := List.map_dropLast Char.toUpper s
  have hb1 : ((upperStr s).getLast? = some '\n') ↔ s.getLast? = some '\n' := by
    unfold upperStr
    rw [List.getLast?_map]
    constructor
    · intro h
      cases hg : s.getLast? with
      | none => rw [hg] at h; exact Option.noConfusion h
      | some c =>
        rw [hg, Option.map_some'] at h
        exact congrArg some (toUpper_eq_newline c (Option.some.inj h))
    · intro h
      rw [h]
      rfl
  constructor
  · unfold is_valid_icd10 pyReMatchIcd10 specIcd10Fullmatch
    constructor
    · intro h
      rw [Bool.or_eq_true] at h
      cases h with
      | inl h1 => exact Or.inl h1
      | inr h2 =>
        rw [Bool.and_eq_true, beq_iff_eq] at h2
        refine Or.inr ⟨hb1.mp h2.1, ?_⟩
        rw [hb2]
        exact h2.2
    · intro h
      rw [Bool.or_eq_true]
      cases h with
      | inl h1 => exact Or.inl h1
      | inr h2 =>
        refine Or.inr ?_
        rw [Bool.and_eq_true, beq_iff_eq]
        refine ⟨hb1.mpr h2.1, ?_⟩
        rw [← hb2]
        exact h2.2
  · intro h
    unfold validateRequest at h
    split at h
    · cases hp : parse_additional_diagnoses r.additional_diagnoses with
      | none => rw [hp] at h; exact absurd h (by simp)
      | some ad =>
        simp only [hp] at h
        have hv := Option.some.inj h
        subst hv
        refine ⟨rfl, upperStr_upperStr _, ?_⟩
        intro c hc
        exact (parse_ad_mem_props r.additional_diagnoses ad hp c hc).2.2.2
    · exact absurd h (by simp)

/-- Witness for the amended C7 at a concrete input: the validated base
request has an uppercased primary diagnosis and uppercase-fixed additional
codes. -/
theorem c7_amended_trailing_newline_witness :
    reqBaseValidated.primary_diagnosis = upperStr baseRaw.primary_diagnosis ∧
    upperStr ("I10".data) = "I10".data := by
  have h := (c7_amended_trailing_newline [] baseRaw reqBaseValidated).2 (by decide)
  exact ⟨h.1, h.2.2 ("I10".data) (by decide)⟩

/-- The shared list comprehension as a strip-then-drop-blanks pipeline:
stripping every entry and then dropping the empties gives the same ordered
list. -/
theorem strippedCodes_eq (l : List Str) :
    strippedCodes l = (l.map pyStrip).filter (fun c => c ≠ []) := by
  unfold strippedCodes
  rw [List.filter_map]
  rfl

/-- C8: validation is idempotent — re-validating the raw form of a validated
request yields it back unchanged. -/
theorem c8_validate_idempotent (r : RawRequest) (v : CarePlanRequest)
    (h : validateRequest r = some v) : validateRequest (toRaw v) = some v := by
  unfold validateRequest at h
  split at h
  · rename_i hC
    cases hp : parse_additional_diagnoses r.additional_diagnoses with
    | none => rw [hp] at h; exact absurd h (by simp)
    | some ad =>
      simp only [hp] at h
      have hv := Option.some.inj h
      subst hv
      obtain ⟨h1, h2, h3, h4, h5, h6, h7⟩ := hC
      unfold validateRequest toRaw
      rw [if_pos ?hcond]
      case hcond =>
        refine ⟨h1, h2, h3, h4, h5, ⟨?_, ?_⟩, h7⟩
        · show 1 ≤ (upperStr r.primary_diagnosis).length
          rw [upperStr_length]
          exact h6.1
        · show is_valid_icd10 (upperStr r.primary_diagnosis) = true
          rw [is_valid_icd10_upperStr]
          exact h6.2
      simp only [parse_ad_idem r.additional_diagnoses ad hp]
      rw [upperStr_upperStr, parse_mh_idem]
  · exact absurd h (by simp)

/-- Witness for C8 at a concrete input: the validated base request
re-validates to itself. -/
theorem c8_validate_idempotent_witness :
    validateRequest (toRaw reqBaseValidated) = some reqBaseValidated :=
  c8_validate_idempotent baseRaw reqBaseValidated (by decide)

/-- C10: a non-list, non-string value for either list field is silently
coerced to the empty list (validation still succeeds and stores empty
lists); list and string inputs are stripped entrywise with empty and
whitespace-only segments dropped and the order of the rest preserved. -/
theorem c10_list_field_coercion :
    (parse_additional_diagnoses PyValue.other = some [] ∧
      parse_medication_history PyValue.other = []) ∧
    (∀ l : List Str, parse_medication_history (PyValue.list l) =
      (l.map pyStrip).filter (fun c => c ≠ [])) ∧
    (∀ s : Str, parse_medication_history (PyValue.str s) =
      if pyStrip s = [] then [] else
        ((pySplitComma s).map pyStrip).filter (fun c => c ≠ [])) ∧
    (∀ l : List Str, (strippedCodes l).all is_valid_icd10 = true →
      parse_additional_diagnoses (PyValue.list l) =
        some (((l.map pyStrip).filter (fun c => c ≠ [])).map upperStr)) ∧
    (∀ s : Str, pyStrip s = [] → parse_additional_diagnoses (PyValue.str s) = some []) ∧
    (∀ s : Str, pyStrip s ≠ [] →
      (strippedCodes (pySplitComma s)).all is_valid_icd10 = true →
      parse_additional_diagnoses (PyValue.str s) =
        some ((((pySplitComma s).map pyStrip).filter (fun c => c ≠ [])).map upperStr)) ∧
    (∀ r : RawRequest, ∀ v : CarePlanRequest,
      r.additional_diagnoses = PyValue.other → r.medication_history = PyValue.other →
      validateRequest r = some v →
      v.additional_diagnoses = [] ∧ v.medication_history = []) := by
  refine ⟨⟨rfl, rfl⟩, ?_, ?_, ?_, ?_, ?_, ?_⟩
  · intro l
    simp only [parse_medication_history]
    exact strippedCodes_eq l
  · intro s
    simp only [parse_medication_history]
    split
    · rfl
    · exact strippedCodes_eq _
  · intro l hall
    simp only [parse_additional_diagnoses]
    rw [if_pos hall, strippedCodes_eq]
  · intro s hblank
    simp only [parse_additional_diagnoses]
    rw [if_pos hblank]
  · intro s hnb hall
    simp only [parse_additional_diagnoses]
    rw [if_neg hnb, if_pos hall, strippedCodes_eq]
  · intro r v ha hm h
    unfold validateRequest at h
    split at h
    · cases hp : parse_additional_diagnoses r.additional_diagnoses with
      | none => rw [hp] at h; exact absurd h (by simp)
      | some ad =>
        simp only [hp] at h
        have hv := Option.some.inj h
        subst hv
        constructor
        · show ad = []
          rw [ha] at hp
          simp only [parse_additional_diagnoses] at hp
          exact (Option.some.inj hp).symm
        · show parse_medication_history r.medication_history = []
          rw [hm]
          simp only [parse_medication_history]
    · exact absurd h (by simp)

/-- Witness for C10 at concrete inputs: a padded code survives stripped and
uppercased for both list and comma-separated string input, and the
all-`other` request validates with both lists empty. -/
theorem c10_list_field_coercion_witness :
    (parse_additional_diagnoses (PyValue.list ([" i10 ".data])) =
      some ((([" i10 ".data].map pyStrip).filter (fun c => c ≠ [])).map upperStr)) ∧
    (parse_additional_diagnoses (PyValue.str (" i10 ,, e78.5 ".data)) =
      some ((((pySplitComma (" i10 ,, e78.5 ".data)).map pyStrip).filter
        (fun c => c ≠ [])).map upperStr)) ∧
    (reqOtherValidated.additional_diagnoses = [] ∧
      reqOtherValidated.medication_history = []) :=
  ⟨c10_list_field_coercion.2.2.2.1 ([" i10 ".data]) (by decide),
   c10_list_field_coercion.2.2.2.2.2.1 (" i10 ,, e78.5 ".data) (by decide) (by decide),
   c10_list_field_coercion.2.2.2.2.2.2 rawOther reqOtherValidated rfl rfl (by decide)⟩

/-- C3: the prior-medication warning is in the warnings list exactly when
the store holds a submission with the same MRN and the same medication name
created on an earlier calendar day, and its text names both the MRN and the
medication. -/
theorem c3_prior_medication_warning (st : Store) (today : Nat) (d : CarePlanRequest) :
    (prevMedWarningMsg d.patient_mrn d.medication_name ∈
        check_duplicate_warnings st today d ↔
      ∃ s ∈ st.care_plans, s.patient_mrn = d.patient_mrn ∧
        s.medication_name = d.medication_name ∧ s.created_day < today) ∧
    (∃ a b c, prevMedWarningMsg d.patient_mrn d.medication_name =
      a ++ (d.patient_mrn ++ (b ++ (d.medication_name ++ c)))) := by
  constructor
  · unfold check_duplicate_warnings
    constructor
    · intro hmem
      rw [List.mem_append] at hmem
      cases hmem with
      | inl hp =>
        exfalso
        unfold patient_duplicate_warnings at hp
        cases h1 : find_care_plan_by_mrn st d.patient_mrn with
        | some s =>
          simp only [h1] at hp
          rw [List.mem_singleton] at hp
          exact prevMed_ne_mrnWarning _ _ _ hp
        | none =>
          simp only [h1] at hp
          cases h2 : find_care_plan_by_patient_name st d.patient_first_name
              d.patient_last_name with
          | some s =>
            simp only [h2] at hp
            rw [List.mem_singleton] at hp
            exact prevMed_ne_nameWarning _ _ _ _ hp
          | none =>
            simp only [h2] at hp
            exact List.not_mem_nil _ hp
      | inr hm =>
        unfold prior_medication_warnings at hm
        cases h3 : find_previous_submission st today d.patient_mrn d.medication_name with
        | some s =>
          have hmem2 : s ∈ st.care_plans := List.mem_of_find?_eq_some h3
          have hpred := List.find?_some h3
          simp only [decide_eq_true_eq] at hpred
          exact ⟨s, hmem2, hpred⟩
        | none =>
          simp only [h3] at hm
          exact absurd hm (List.not_mem_nil _)
    · rintro ⟨s, hs, hprop⟩
      rw [List.mem_append]
      right
      unfold prior_medication_warnings
      cases h3 : find_previous_submission st today d.patient_mrn d.medication_name with
      | some s2 => simp
      | none =>
        exfalso
        unfold find_previous_submission at h3
        have hnot := List.find?_eq_none.mp h3 s hs
        simp only [decide_eq_true_eq] at hnot
        exact hnot hprop
  · exact ⟨("Warning: This patient (MRN: ".data), (") already has a care plan for ".data),
      (" from a previous date.".data), rfl⟩

/-- Witness for C3 at a concrete input: a day-5 Humira submission triggers
the prior-medication warning on day 7. -/
theorem c3_prior_medication_warning_witness :
    prevMedWarningMsg ("123456".data) ("Humira".data) ∈
      check_duplicate_warnings stWithJohn 7 reqJohn :=
  (c3_prior_medication_warning stWithJohn 7 reqJohn).1.mpr
    ⟨mkSubmission reqJohn ("plan".data) 5, by decide, by decide⟩

/-- C9: the warnings list is the patient-duplicate block followed by the
prior-medication block; the patient block holds at most one warning — the
MRN warning when an MRN match exists (and then no name warning appears
anywhere in the list), the name warning exactly when there is no MRN match
but a case-insensitive name match, and nothing otherwise. -/
theorem c9_patient_warning_exclusive_and_ordered (st : Store) (today : Nat)
    (d : CarePlanRequest) :
    check_duplicate_warnings st today d =
      patient_duplicate_warnings st d ++ prior_medication_warnings st today d ∧
    ((find_care_plan_by_mrn st d.patient_mrn).isSome = true →
      patient_duplicate_warnings st d = [mrnWarningMsg d.patient_mrn] ∧
      ∀ a b, nameWarningMsg a b ∉ check_duplicate_warnings st today d) ∧
    (find_care_plan_by_mrn st d.patient_mrn = none →
      (patient_duplicate_warnings st d =
          [nameWarningMsg d.patient_first_name d.patient_last_name] ↔
        (find_care_plan_by_patient_name st d.patient_first_name
            d.patient_last_name).isSome = true)) ∧
    (patient_duplicate_warnings st d = [] ∨
      patient_duplicate_warnings st d = [mrnWarningMsg d.patient_mrn] ∨
      patient_duplicate_warnings st d =
        [nameWarningMsg d.patient_first_name d.patient_last_name]) ∧
    (prior_medication_warnings st today d = [] ∨
      prior_medication_warnings st today d =
        [prevMedWarningMsg d.patient_mrn d.medication_name]) := by
  refine ⟨rfl, ?_, ?_, ?_, ?_⟩
  · intro hsome
    cases h1 : find_care_plan_by_mrn st d.patient_mrn with
    | none => rw [h1] at hsome; exact absurd hsome (by simp)
    | some s =>
      have hpat : patient_duplicate_warnings st d = [mrnWarningMsg d.patient_mrn] := by
        unfold patient_duplicate_warnings
        simp only [h1]
      refine ⟨hpat, ?_⟩
      intro a b hmem
      unfold check_duplicate_warnings at hmem
      rw [hpat, List.mem_append] at hmem
      cases hmem with
      | inl hx =>
        rw [List.mem_singleton] at hx
        exact nameWarning_ne_mrnWarning a b _ hx
      | inr hx =>
        unfold prior_medication_warnings at hx
        cases h3 : find_previous_submission st today d.patient_mrn d.medication_name with
        | some s2 =>
          simp only [h3] at hx
          rw [List.mem_singleton] at hx
          exact prevMed_ne_nameWarning _ _ _ _ hx.symm
        | none =>
          simp only [h3] at hx
          exact List.not_mem_nil _ hx
  · intro hnone
    unfold patient_duplicate_warnings
    simp only [hnone]
    cases h2 : find_care_plan_by_patient_name st d.patient_first_name
        d.patient_last_name with
    | some s => simp
    | none => simp
  · unfold patient_duplicate_warnings
    cases h1 : find_care_plan_by_mrn st d.patient_mrn with
    | some s => simp
    | none =>
      cases h2 : find_care_plan_by_patient_name st d.patient_first_name
          d.patient_last_name with
      | some s => simp
      | none => simp
  · unfold prior_medication_warnings
    cases h3 : find_previous_submission st today d.patient_mrn d.medication_name with
    | some s => simp
    | none => simp

/-- Witness for C9 at a concrete input: with an MRN match the patient block
is exactly the MRN warning and no name warning appears. -/
theorem c9_patient_warning_exclusive_and_ordered_witness :
    patient_duplicate_warnings stWithJohn reqJohn = [mrnWarningMsg ("123456".data)] ∧
    nameWarningMsg ("John".data) ("Doe".data) ∉
      check_duplicate_warnings stWithJohn 7 reqJohn := by
  have h := (c9_patient_warning_exclusive_and_ordered stWithJohn 7 reqJohn).2.1 (by decide)
  exact ⟨h.1, h.2 ("John".data) ("Doe".data)⟩

/-- Passing the provider-conflict check and inserting the submitted provider
preserves the bidirectional injectivity of the provider table. -/
theorem insert_provider_preserves_consistency (st : Store) (name npi : Str)
    (hok : check_blocking_provider_conflict st name npi = none)
    (h : providersConsistent st.providers) :
    providersConsistent (insert_provider st name npi).providers := by
  unfold insert_provider
  by_cases hany : st.providers.any (fun p => p.npi = npi) = true
  · rw [if_pos hany]
    exact h
  · rw [if_neg hany]
    have hnone : ∀ p ∈ st.providers, p.npi ≠ npi := by
      intro p hp heq
      apply hany
      rw [List.any_eq_true]
      exact ⟨p, hp, by simpa using heq⟩
    have hname : ∀ p ∈ st.providers, lowerStr p.name ≠ lowerStr name := by
      intro p hp heq
      have hs : (find_provider_by_name st name).isSome = true := by
        unfold find_provider_by_name
        rw [List.find?_isSome]
        exact ⟨p, hp, by simpa using heq⟩
      cases hfind : find_provider_by_name st name with
      | none => rw [hfind] at hs; exact absurd hs (by simp)
      | some q =>
        have hqnpi : q.npi = npi := by
          by_contra hne
          simp only [check_blocking_provider_conflict, hfind, if_neg hne] at hok
          exact Option.noConfusion hok
        exact hnone q (List.mem_of_find?_eq_some hfind) hqnpi
    show providersConsistent (st.providers ++ [{ name := name, npi := npi }])
    intro p hp q hq
    rw [List.mem_append] at hp hq
    rcases hp with hp | hp <;> rcases hq with hq | hq
    · exact h p hp q hq
    · have hq2 : q = { name := name, npi := npi } := by simpa using hq
      subst hq2
      constructor
      · intro he
        exact absurd he (hnone p hp)
      · intro he
        exact absurd he (hname p hp)
    · have hp2 : p = { name := name, npi := npi } := by simpa using hp
      subst hp2
      constructor
      · intro he
        exact absurd he.symm (hnone q hq)
      · intro he
        exact absurd he.symm (hname q hq)
    · have hp2 : p = { name := name, npi := npi } := by simpa using hp
      have hq2 : q = { name := name, npi := npi } := by simpa using hq
      subst hp2
      subst hq2
      exact ⟨fun _ => rfl, fun _ => rfl⟩

/-- A `create_care_plan` call, whatever its outcome, preserves the
bidirectional injectivity of the provider table. -/
theorem create_care_plan_preserves_consistency (st : Store) (today : Nat)
    (gen : Option Str) (d : CarePlanRequest) (h : providersConsistent st.providers) :
    providersConsistent ((create_care_plan st today gen d).2).providers := by
  unfold create_care_plan
  cases hd : check_blocking_duplicate st today d with
  | some m => exact h
  | none =>
    cases hp : check_blocking_provider_conflict st d.referring_provider
        d.referring_provider_npi with
    | some m => exact h
    | none =>
      cases gen with
      | none => exact h
      | some plan =>
        show providersConsistent
          (insert_provider st d.referring_provider d.referring_provider_npi).providers
        exact insert_provider_preserves_consistency st d.referring_provider
          d.referring_provider_npi hp h

/-- C4: starting from the empty store, after any sequence of
`create_care_plan` operations the provider table is injective in both
directions — no two records share an NPI with different names and no two
share a case-insensitively equal name with different NPIs. -/
theorem c4_providers_injective (ops : List (Nat × Option Str × CarePlanRequest)) :
    providersConsistent (runOps ops emptyStore).providers := by
  suffices hgen : ∀ st : Store, providersConsistent st.providers →
      providersConsistent (runOps ops st).providers by
    apply hgen
    intro p hp q hq
    exact absurd hp (List.not_mem_nil p)
  induction ops with
  | nil =>
    intro st h
    exact h
  | cons op rest ih =>
    intro st h
    exact ih _ (create_care_plan_preserves_consistency st op.1 op.2.1 op.2.2 h)

/-- Witness for C4 at a concrete input: one successful operation from the
empty store leaves a consistent provider table. -/
theorem c4_providers_injective_witness :
    providersConsistent (runOps [(0, some ("plan".data), reqJohn)] emptyStore).providers :=
  c4_providers_injective [(0, some ("plan".data), reqJohn)]
